import Mathlib

/-!
Verification of the ELF32 loader core (`Source/Core/Core/Boot/ElfReader.cpp`).

The embedding models the reader state after `ElfReader::Initialize` has run:
`bytes` is the borrowed byte buffer (`m_bytes`, each element a `u8` value),
`segments` is the program-header table exactly as the `e_phnum`-bounded loops
see it (one entry per loop iteration, already byte-swapped by `Initialize`),
`sections` likewise is the `e_shnum`-entry section-header table, and
`e_type` / `e_shstrndx` are the byte-swapped header fields the operations use.
The host is modelled as little-endian (the platforms the program targets), so a
raw in-memory `u32` load is a little-endian read and `Common::swap32` on top of
it yields the big-endian file value.

Side effects are modelled as explicit traces: `LoadIntoMemory` returns the list
of `Memory::CopyToEmu` / `Memory::Memset` calls it makes, and `LoadSymbols`
returns the list of `g_symbolDB.AddKnownSymbol` / `g_symbolDB.Index` calls.
-/

namespace Elf

/-- `Common::swap16`: byte-reverse a 16-bit value. -/
def swap16 (w : Nat) : Nat :=
  w % 256 * 256 + w / 256 % 256

/-- `Common::swap32`: byte-reverse a 32-bit value. -/
def swap32 (w : Nat) : Nat :=
  w % 256 * 2 ^ 24 + w / 2 ^ 8 % 256 * 2 ^ 16 + w / 2 ^ 16 % 256 * 2 ^ 8 + w / 2 ^ 24 % 256

def U32_MOD : Nat := 2 ^ 32

/-- Read `n` bytes of the buffer starting at `off`; reading past the end of the
buffer is undefined behaviour in the source (raw pointer arithmetic) and is
modelled as yielding `0`. -/
def readBytes (buf : List Nat) (off n : Nat) : List Nat :=
  (List.range n).map fun k => buf.getD (off + k) 0

/-- A raw in-memory `u16` load on the (little-endian) host. -/
def readU16 (buf : List Nat) (off : Nat) : Nat :=
  buf.getD off 0 + buf.getD (off + 1) 0 * 2 ^ 8

/-- A raw in-memory `u32` load on the (little-endian) host. -/
def readU32 (buf : List Nat) (off : Nat) : Nat :=
  buf.getD off 0 + buf.getD (off + 1) 0 * 2 ^ 8 + buf.getD (off + 2) 0 * 2 ^ 16 +
    buf.getD (off + 3) 0 * 2 ^ 24

/-- A C string in the buffer: bytes from `off` up to the first NUL. -/
def readCString (buf : List Nat) (off : Nat) : List Nat :=
  (buf.drop off).takeWhile fun b => b != 0

/-- ELF constants used by the source (`elf.h` values). -/
def ET_EXEC : Nat := 2

def PT_LOAD : Nat := 1

def PF_X : Nat := 1

def SHT_NULL : Nat := 0

def SHT_NOBITS : Nat := 8

def STT_OBJECT : Nat := 1

def STT_FUNC : Nat := 2

/-- `Elf32_Ehdr`: the ELF32 file header. `e_ident` is the 16 identification
bytes (never byte-swapped); the remaining fields are the multi-byte integers
`byteswapHeader` normalizes. -/
structure Elf32_Ehdr where
  e_ident : List Nat
  e_type : Nat
  e_machine : Nat
  e_version : Nat
  e_entry : Nat
  e_phoff : Nat
  e_shoff : Nat
  e_flags : Nat
  e_ehsize : Nat
  e_phentsize : Nat
  e_phnum : Nat
  e_shentsize : Nat
  e_shnum : Nat
  e_shstrndx : Nat
deriving DecidableEq

/-- `Elf32_Phdr`: one program-header (segment) table entry. -/
structure Elf32_Phdr where
  p_type : Nat
  p_offset : Nat
  p_vaddr : Nat
  p_paddr : Nat
  p_filesz : Nat
  p_memsz : Nat
  p_flags : Nat
  p_align : Nat
deriving DecidableEq

instance : Inhabited Elf32_Phdr := ⟨⟨0, 0, 0, 0, 0, 0, 0, 0⟩⟩

/-- `Elf32_Shdr`: one section-header table entry. -/
structure Elf32_Shdr where
  sh_name : Nat
  sh_type : Nat
  sh_flags : Nat
  sh_addr : Nat
  sh_offset : Nat
  sh_size : Nat
  sh_link : Nat
  sh_info : Nat
  sh_addralign : Nat
  sh_entsize : Nat
deriving DecidableEq

instance : Inhabited Elf32_Shdr := ⟨⟨0, 0, 0, 0, 0, 0, 0, 0, 0, 0⟩⟩

/-- `byteswapHeader`: byte-swap every multi-byte integer field of the header
(`e_ident` is untouched). -/
def byteswapHeader (h : Elf32_Ehdr) : Elf32_Ehdr :=
  { h with
    e_type := swap16 h.e_type
    e_machine := swap16 h.e_machine
    e_ehsize := swap16 h.e_ehsize
    e_phentsize := swap16 h.e_phentsize
    e_phnum := swap16 h.e_phnum
    e_shentsize := swap16 h.e_shentsize
    e_shnum := swap16 h.e_shnum
    e_shstrndx := swap16 h.e_shstrndx
    e_version := swap32 h.e_version
    e_entry := swap32 h.e_entry
    e_phoff := swap32 h.e_phoff
    e_shoff := swap32 h.e_shoff
    e_flags := swap32 h.e_flags }

/-- The `Elf32_Ehdr` view the (little-endian) host sees at the start of the
buffer, before `byteswapHeader` runs: fixed-offset raw loads. -/
def parseEhdrRaw (buf : List Nat) : Elf32_Ehdr where
  e_ident := readBytes buf 0 16
  e_type := readU16 buf 16
  e_machine := readU16 buf 18
  e_version := readU32 buf 20
  e_entry := readU32 buf 24
  e_phoff := readU32 buf 28
  e_shoff := readU32 buf 32
  e_flags := readU32 buf 36
  e_ehsize := readU16 buf 40
  e_phentsize := readU16 buf 42
  e_phnum := readU16 buf 44
  e_shentsize := readU16 buf 46
  e_shnum := readU16 buf 48
  e_shstrndx := readU16 buf 50

/-- The reader state after `ElfReader::Initialize`: the borrowed byte buffer,
the header fields the operations consult (already byte-swapped), the
`e_phnum`-entry program-header table and `e_shnum`-entry section-header table
as the loops see them (byte-swapped in place by `Initialize`, one list element
per loop iteration), and the per-section base-address table `sectionAddrs`. -/
structure ElfReader where
  bytes : List Nat
  e_type : Nat
  e_entry : Nat
  e_shstrndx : Nat
  segments : List Elf32_Phdr
  sections : List Elf32_Shdr
  sectionAddrs : Nat → Nat

/-- `bRelocate`, as set by `Initialize`: the image is classified relocatable
when its type is not `ET_EXEC`. -/
def ElfReader.bRelocate (r : ElfReader) : Bool :=
  r.e_type != ET_EXEC

/-- The error taxonomy of the specification. -/
inductive LoadError where
  | MalformedHeader
  | OutOfBoundsTable
  | RelocationUnsupported
  | TruncatedSegment
deriving DecidableEq

/-- The expected ELF32 identification bytes: magic `0x7F 'E' 'L' 'F'` and
class byte `1` (`ELFCLASS32`). -/
def identMatches (buf : List Nat) : Bool :=
  buf.getD 0 0 == 0x7F && buf.getD 1 0 == 0x45 && buf.getD 2 0 == 0x4C &&
    buf.getD 3 0 == 0x46 && buf.getD 4 0 == 1

/-- Modelled from the spec: the construction-time header validation lives in
`ElfReader.h` (`BootExecutableReader` / `IsValid`), which is not among the
given sources. Per the spec (§4.1), construction produces a parsed,
byte-order-normalized header, or fails with `MalformedHeader` — with no
further parsing — when the buffer is shorter than the minimum ELF32 header
size (52 bytes) or the identification bytes do not match the expected
signature and class. -/
def constructHeader (buf : List Nat) : Except LoadError Elf32_Ehdr :=
  if buf.length < 52 ∨ identMatches buf = false then
    Except.error LoadError.MalformedHeader
  else
    Except.ok (byteswapHeader (parseEhdrRaw buf))

/-- One call into the target memory image: `Memory::CopyToEmu(addr, src, len)`
recorded with the bytes it copies, or `Memory::Memset(addr, val, len)`. -/
inductive MemWrite where
  | copy (addr : Nat) (data : List Nat)
  | memset (addr : Nat) (val : Nat) (len : Nat)
deriving DecidableEq

/-- The set of addresses a write touches. -/
def MemWrite.Covers : MemWrite → Nat → Prop
  | .copy addr data, a => addr ≤ a ∧ a < addr + data.length
  | .memset addr _ len, a => addr ≤ a ∧ a < addr + len

instance (w : MemWrite) (a : Nat) : Decidable (w.Covers a) := by
  cases w <;> (unfold MemWrite.Covers; infer_instance)

/-- Apply one recorded write to a flat memory image. -/
def applyWrite (w : MemWrite) (m : Nat → Nat) : Nat → Nat :=
  fun a =>
    match w with
    | .copy addr data => if addr ≤ a ∧ a < addr + data.length then data.getD (a - addr) 0 else m a
    | .memset addr v len => if addr ≤ a ∧ a < addr + len then v else m a

/-- Apply a trace of writes in order. -/
def applyWrites (ws : List MemWrite) (m : Nat → Nat) : Nat → Nat :=
  ws.foldl (fun m w => applyWrite w m) m

/-- Modelled from the spec: `Memory::REALRAM_SIZE` (from `Memmap.h`, an
external collaborator) — the boundary of the primary memory region used by
the `only_in_mem1` constraint. -/
def REALRAM_SIZE : Nat := 0x01800000

/-- The writes the `PT_LOAD` branch of `ElfReader::LoadIntoMemory` makes for
one program-header entry: skip non-`LOAD` entries; skip entries outside the
primary region when `only_in_mem1` is set; otherwise copy `p_filesz` bytes
from file offset `p_offset` to `p_vaddr` and, when `p_filesz < p_memsz`,
zero the following `p_memsz - p_filesz` bytes (`writeAddr + srcSize` is `u32`
arithmetic, hence the `% U32_MOD`). -/
def segmentWrites (bytes : List Nat) (only_in_mem1 : Bool) (p : Elf32_Phdr) : List MemWrite :=
  if p.p_type = PT_LOAD then
    if only_in_mem1 = true ∧ REALRAM_SIZE ≤ p.p_vaddr then []
    else
      MemWrite.copy p.p_vaddr (readBytes bytes p.p_offset p.p_filesz) ::
        (if p.p_filesz < p.p_memsz then
          [MemWrite.memset ((p.p_vaddr + p.p_filesz) % U32_MOD) 0 (p.p_memsz - p.p_filesz)]
        else [])
  else []

/-- `ElfReader::LoadIntoMemory`: returns the success flag and the trace of
memory-image writes. A relocatable image is refused before any write; else
every program-header entry is processed in order. -/
def LoadIntoMemory (r : ElfReader) (only_in_mem1 : Bool) : Bool × List MemWrite :=
  if r.bRelocate then (false, [])
  else (true, (r.segments.map (segmentWrites r.bytes only_in_mem1)).flatten)

/-- Modelled from the spec: `GetSectionDataPtr` lives in `ElfReader.h`, which
is not among the given sources. Per the spec (§4.3), a section's data is the
buffer at the section's stored offset, and an unreadable section — index out
of table range, or a no-bits section with no file-resident data — yields
none. -/
def GetSectionDataPtr (r : ElfReader) (sec : Nat) : Option Nat :=
  if sec < r.sections.length ∧ (r.sections.getD sec default).sh_type ≠ SHT_NOBITS then
    some (r.sections.getD sec default).sh_offset
  else none

/-- `ElfReader::GetSectionName`: a `SHT_NULL` section has no name; otherwise
the name is the C string at the stored name offset inside the data of the
section-header string table (`e_shstrndx`), or none when that table is
unreadable. -/
def GetSectionName (r : ElfReader) (sec : Nat) : Option (List Nat) :=
  if (r.sections.getD sec default).sh_type = SHT_NULL then none
  else
    match GetSectionDataPtr r r.e_shstrndx with
    | some ptr => some (readCString r.bytes (ptr + (r.sections.getD sec default).sh_name))
    | none => none

/-- The scan loop of `ElfReader::GetSectionByName`, starting at index `i`
with `fuel` indices left before `e_shnum`. -/
def findSectionFrom (r : ElfReader) (name : List Nat) : Nat → Nat → Option Nat
  | _, 0 => none
  | i, fuel + 1 =>
    if GetSectionName r i = some name then some i
    else findSectionFrom r name (i + 1) fuel

/-- `ElfReader::GetSectionByName`: first section index at or after
`firstSection` whose name equals `name` (the source returns `-1`, modelled as
`none`, when the scan reaches `e_shnum` without a match). -/
def GetSectionByName (r : ElfReader) (name : List Nat) (firstSection : Nat) : Option Nat :=
  findSectionFrom r name firstSection (r.sections.length - firstSection)

/-- `Symbol::Type` values the extractor emits. -/
inductive SymbolType where
  | Data
  | Function
deriving DecidableEq

/-- One call into the symbol sink: `g_symbolDB.AddKnownSymbol(...)` or
`g_symbolDB.Index()`. -/
inductive SinkCall where
  | addSymbol (value size : Nat) (name : List Nat) (stype : SymbolType)
  | index
deriving DecidableEq

def SinkCall.isAdd : SinkCall → Bool
  | .addSymbol _ _ _ _ => true
  | .index => false

/-- The name `".symtab"` as a byte string. -/
def dotSymtab : List Nat := [0x2E, 0x73, 0x79, 0x6D, 0x74, 0x61, 0x62]

/-- The per-entry body of the `LoadSymbols` loop, for the 16-byte `Elf32_Sym`
record at buffer offset `symOff` (records are read raw and byte-swapped on
access: `st_name` at +0, `st_value` at +4, `st_size` at +8, `st_info` at +12,
`st_shndx` at +14). An entry with zero size, or whose type nibble is neither
`STT_OBJECT` nor `STT_FUNC`, is skipped; otherwise one `AddKnownSymbol` call
is produced. -/
def processSym (r : ElfReader) (stringBase symOff : Nat) : Option SinkCall :=
  let size := swap32 (readU32 r.bytes (symOff + 8))
  if size = 0 then none
  else
    let ty := r.bytes.getD (symOff + 12) 0 % 16
    let sectionIndex := swap16 (readU16 r.bytes (symOff + 14))
    let value0 := swap32 (readU32 r.bytes (symOff + 4))
    let value := if r.bRelocate then (value0 + r.sectionAddrs sectionIndex) % U32_MOD else value0
    let name := readCString r.bytes (stringBase + swap32 (readU32 r.bytes symOff))
    if ty = STT_OBJECT then some (SinkCall.addSymbol value size name SymbolType.Data)
    else if ty = STT_FUNC then some (SinkCall.addSymbol value size name SymbolType.Function)
    else none

/-- The `AddKnownSymbol` calls `ElfReader::LoadSymbols` makes: none when no
`".symtab"` section exists; otherwise one pass over the
`sh_size / sizeof(Elf32_Sym)` records of that section's data, with the string
table located through the symbol table's `sh_link`. The source dereferences
the data pointers without a null check (undefined behaviour when a table is
unreadable); an unreadable table is modelled as offset `0`. -/
def symbolCalls (r : ElfReader) : List SinkCall :=
  match GetSectionByName r dotSymtab 0 with
  | none => []
  | some sec =>
    let stringBase := (GetSectionDataPtr r (r.sections.getD sec default).sh_link).getD 0
    let symtab := (GetSectionDataPtr r sec).getD 0
    let numSymbols := (r.sections.getD sec default).sh_size / 16
    (List.range numSymbols).filterMap fun s => processSym r stringBase (symtab + 16 * s)

/-- `ElfReader::LoadSymbols`: returns `hasSymbols` (whether any
`AddKnownSymbol` call was made) and the trace of sink calls;
`g_symbolDB.Index()` is called once at the end on every path. -/
def LoadSymbols (r : ElfReader) : Bool × List SinkCall :=
  (!(symbolCalls r).isEmpty, symbolCalls r ++ [SinkCall.index])

/-- `IsWii`'s pattern and mask, swapped once instead of swapping every word
of the file: `mfspr` from `HID4`. -/
def HID4_pattern : Nat := swap32 0x7c13fba6

def HID4_mask : Nat := swap32 0xfc1fffff

/-- Modelled from the spec: `GetSegmentPtr` (in `ElfReader.h`, not among the
given sources) — a segment's file-resident bytes start at its stored file
offset in the buffer. -/
def GetSegmentPtr (r : ElfReader) (i : Nat) : Nat :=
  (r.segments.getD i default).p_offset

/-- Modelled from the spec: `GetSegmentSize` (in `ElfReader.h`, not among the
given sources) — the byte count of a segment's file-resident data is its file
size. -/
def GetSegmentSize (r : ElfReader) (i : Nat) : Nat :=
  (r.segments.getD i default).p_filesz

/-- Modelled from the spec: `IsCodeSegment` (in `ElfReader.h`, not among the
given sources) — per the spec (§4.5) the heuristic scans every `LOAD` segment
that is marked executable. -/
def IsCodeSegment (r : ElfReader) (i : Nat) : Bool :=
  (r.segments.getD i default).p_type == PT_LOAD &&
    (r.segments.getD i default).p_flags &&& PF_X != 0

/-- `ElfReader::IsWii`: scan every code segment's data as 4-byte words and
report whether some word matches the `HID4` pattern under the mask (words are
raw host loads compared against the once-swapped pattern and mask). -/
def IsWii (r : ElfReader) : Bool :=
  (List.range r.segments.length).any fun i =>
    IsCodeSegment r i &&
      (List.range (GetSegmentSize r i / 4)).any fun j =>
        readU32 r.bytes (GetSegmentPtr r i + 4 * j) &&& HID4_mask == HID4_pattern

/-- The address range the processing of segment `p` can write into:
`[p_vaddr, p_vaddr + max p_filesz p_memsz)` (the copy covers `p_filesz` bytes,
the zero-fill ends at `p_vaddr + p_memsz`). -/
def segRegion (p : Elf32_Phdr) (a : Nat) : Prop :=
  p.p_vaddr ≤ a ∧ a < p.p_vaddr + max p.p_filesz p.p_memsz

/-- Representation invariant of a header whose fields came from `u16`/`u32`
loads. -/
def Elf32_Ehdr.WF (h : Elf32_Ehdr) : Prop :=
  h.e_type < 2 ^ 16 ∧ h.e_machine < 2 ^ 16 ∧ h.e_ehsize < 2 ^ 16 ∧
    h.e_phentsize < 2 ^ 16 ∧ h.e_phnum < 2 ^ 16 ∧ h.e_shentsize < 2 ^ 16 ∧
    h.e_shnum < 2 ^ 16 ∧ h.e_shstrndx < 2 ^ 16 ∧ h.e_version < U32_MOD ∧
    h.e_entry < U32_MOD ∧ h.e_phoff < U32_MOD ∧ h.e_shoff < U32_MOD ∧
    h.e_flags < U32_MOD

/-! Concrete fixtures used as witnesses and counterexamples. -/

/-- A relocatable image (`e_type = 1 ≠ ET_EXEC`) with a loadable segment. -/
def relocFixture : ElfReader where
  bytes := [1, 2, 3, 4]
  e_type := 1
  e_entry := 0
  e_shstrndx := 0
  segments := [{ p_type := 1, p_offset := 0, p_vaddr := 0x80004000, p_paddr := 0,
                 p_filesz := 4, p_memsz := 8, p_flags := 1, p_align := 0 }]
  sections := []
  sectionAddrs := fun _ => 0

/-- The spec's 2-segment scenario: a `LOAD` segment
`{vaddr = 0x80004000, filesz = 16, memsz = 32}` whose 16 file bytes are
`0xAA`, stored at file offset 4. -/
def c2segMain : Elf32_Phdr where
  p_type := 1
  p_offset := 4
  p_vaddr := 0x80004000
  p_paddr := 0
  p_filesz := 16
  p_memsz := 32
  p_flags := 0
  p_align := 0

/-- The scenario's second segment: an empty `LOAD` segment elsewhere. -/
def c2segOther : Elf32_Phdr where
  p_type := 1
  p_offset := 0
  p_vaddr := 0x80005000
  p_paddr := 0
  p_filesz := 0
  p_memsz := 0
  p_flags := 0
  p_align := 0

def c2reader : ElfReader where
  bytes := List.replicate 4 0 ++ List.replicate 16 0xAA
  e_type := 2
  e_entry := 0
  e_shstrndx := 0
  segments := [c2segOther, c2segMain]
  sections := []
  sectionAddrs := fun _ => 0

/-- A fixed-address image whose only `LOAD` segment declares
`p_offset + p_filesz = 100` bytes of file data while the buffer holds 4. -/
def c4seg : Elf32_Phdr where
  p_type := 1
  p_offset := 0
  p_vaddr := 0x100
  p_paddr := 0
  p_filesz := 100
  p_memsz := 100
  p_flags := 0
  p_align := 0

def c4reader : ElfReader where
  bytes := [1, 2, 3, 4]
  e_type := 2
  e_entry := 0
  e_shstrndx := 0
  segments := [c4seg]
  sections := []
  sectionAddrs := fun _ => 0

/-- A fixed-address image with a `".symtab"` section holding one function
symbol of size 4, value `0x1234`, name `"f"`. Buffer layout: section-name
string table at 0 (`NUL`, then `".symtab"`), one 16-byte `Elf32_Sym` record
at 16 (big-endian fields), symbol-name string table at 32. -/
def c5reader : ElfReader where
  bytes :=
    [0x00, 0x2E, 0x73, 0x79, 0x6D, 0x74, 0x61, 0x62,
     0x00, 0x00, 0x00, 0x00, 0x00, 0x00, 0x00, 0x00,
     0x00, 0x00, 0x00, 0x00,
     0x00, 0x00, 0x12, 0x34,
     0x00, 0x00, 0x00, 0x04,
     0x12, 0x00, 0x00, 0x00,
     0x66, 0x00]
  e_type := 2
  e_entry := 0
  e_shstrndx := 0
  segments := []
  sections :=
    [{ sh_name := 0, sh_type := 3, sh_flags := 0, sh_addr := 0, sh_offset := 0,
       sh_size := 9, sh_link := 0, sh_info := 0, sh_addralign := 0, sh_entsize := 0 },
     { sh_name := 1, sh_type := 2, sh_flags := 0, sh_addr := 0, sh_offset := 16,
       sh_size := 16, sh_link := 2, sh_info := 0, sh_addralign := 0, sh_entsize := 16 },
     { sh_name := 0, sh_type := 3, sh_flags := 0, sh_addr := 0, sh_offset := 32,
       sh_size := 2, sh_link := 0, sh_info := 0, sh_addralign := 0, sh_entsize := 0 }]
  sectionAddrs := fun _ => 0

/-- A name no section of `c5reader` has. -/
def zName : List Nat := [0x7A]

/-- An image whose only section is of type `SHT_NULL`. -/
def c6nullReader : ElfReader where
  bytes := []
  e_type := 2
  e_entry := 0
  e_shstrndx := 0
  segments := []
  sections :=
    [{ sh_name := 5, sh_type := 0, sh_flags := 0, sh_addr := 0, sh_offset := 0,
       sh_size := 0, sh_link := 0, sh_info := 0, sh_addralign := 0, sh_entsize := 0 }]
  sectionAddrs := fun _ => 0

/-- An executable `LOAD` segment of 4 file bytes at offset 0. -/
def c7seg : Elf32_Phdr where
  p_type := 1
  p_offset := 0
  p_vaddr := 0
  p_paddr := 0
  p_filesz := 4
  p_memsz := 4
  p_flags := 1
  p_align := 0

/-- A code segment whose word is exactly the `HID4` instruction
`0x7c13fba6` (big-endian in the file). -/
def c7reader : ElfReader where
  bytes := [0x7C, 0x13, 0xFB, 0xA6]
  e_type := 2
  e_entry := 0
  e_shstrndx := 0
  segments := [c7seg]
  sections := []
  sectionAddrs := fun _ => 0

/-- Identical to `c7reader` except bit 21 of the word — a bit the mask
`0xfc1fffff` does NOT select — is flipped: the word is `0x7c33fba6`. -/
def c7outsideReader : ElfReader where
  bytes := [0x7C, 0x33, 0xFB, 0xA6]
  e_type := 2
  e_entry := 0
  e_shstrndx := 0
  segments := [c7seg]
  sections := []
  sectionAddrs := fun _ => 0

/-- Identical to `c7reader` except bit 0 of the word — a bit the mask
selects — is flipped: the word is `0x7c13fba7`. -/
def c7insideReader : ElfReader where
  bytes := [0x7C, 0x13, 0xFB, 0xA7]
  e_type := 2
  e_entry := 0
  e_shstrndx := 0
  segments := [c7seg]
  sections := []
  sectionAddrs := fun _ => 0


/-- Two overlapping `LOAD` segments: both load one byte to address 64, the
first from file offset 0 (byte `0x11`), the second from offset 1 (`0x22`). -/
def c2ovlA : Elf32_Phdr where
  p_type := 1
  p_offset := 0
  p_vaddr := 64
  p_paddr := 0
  p_filesz := 1
  p_memsz := 1
  p_flags := 0
  p_align := 0

def c2ovlB : Elf32_Phdr where
  p_type := 1
  p_offset := 1
  p_vaddr := 64
  p_paddr := 0
  p_filesz := 1
  p_memsz := 1
  p_flags := 0
  p_align := 0

def c2ovlReader : ElfReader where
  bytes := [0x11, 0x22]
  e_type := 2
  e_entry := 0
  e_shstrndx := 0
  segments := [c2ovlA, c2ovlB]
  sections := []
  sectionAddrs := fun _ => 0

/-- A valid ELF32 buffer (magic and class match, 52 bytes long) whose every
multi-byte header field is zero. -/
def c9zeroBuf : List Nat :=
  [0x7F, 0x45, 0x4C, 0x46, 1, 1, 1, 0, 0, 0, 0, 0, 0, 0, 0, 0] ++ List.replicate 36 0

/-- A well-formed header with a field the byte swap changes
(`e_type = 0x0200`, the host's raw view of big-endian `ET_EXEC`). -/
def c9hdr : Elf32_Ehdr where
  e_ident := [0x7F, 0x45, 0x4C, 0x46, 1, 2, 1, 0, 0, 0, 0, 0, 0, 0, 0, 0]
  e_type := 0x0200
  e_machine := 0x1400
  e_version := 0x01000000
  e_entry := 0
  e_phoff := 0
  e_shoff := 0
  e_flags := 0
  e_ehsize := 0
  e_phentsize := 0
  e_phnum := 0
  e_shentsize := 0
  e_shnum := 0
  e_shstrndx := 0


/-! Helper lemmas. -/

theorem swap16_lt (w : Nat) : swap16 w < 2 ^ 16 := by
  unfold swap16; omega

theorem swap32_lt (w : Nat) : swap32 w < U32_MOD := by
  unfold swap32 U32_MOD; omega

theorem swap16_bytes (a b : Nat) (ha : a < 256) (hb : b < 256) :
    swap16 (a + b * 2 ^ 8) = b + a * 2 ^ 8 := by
  unfold swap16
  have h1 : (a + b * 2 ^ 8) % 256 = a := by omega
  have h2 : (a + b * 2 ^ 8) / 256 % 256 = b := by omega
  rw [h1, h2]; ring

theorem swap32_bytes (a b c d : Nat) (ha : a < 256) (hb : b < 256) (hc : c < 256)
    (hd : d < 256) :
    swap32 (a + b * 2 ^ 8 + c * 2 ^ 16 + d * 2 ^ 24) =
      d + c * 2 ^ 8 + b * 2 ^ 16 + a * 2 ^ 24 := by
  unfold swap32
  have h1 : (a + b * 2 ^ 8 + c * 2 ^ 16 + d * 2 ^ 24) % 256 = a := by omega
  have h2 : (a + b * 2 ^ 8 + c * 2 ^ 16 + d * 2 ^ 24) / 2 ^ 8 % 256 = b := by omega
  have h3 : (a + b * 2 ^ 8 + c * 2 ^ 16 + d * 2 ^ 24) / 2 ^ 16 % 256 = c := by omega
  have h4 : (a + b * 2 ^ 8 + c * 2 ^ 16 + d * 2 ^ 24) / 2 ^ 24 % 256 = d := by omega
  rw [h1, h2, h3, h4]; ring

theorem swap16_swap16 (w : Nat) (h : w < 2 ^ 16) : swap16 (swap16 w) = w := by
  have ha : w % 256 < 256 := by omega
  have hb : w / 2 ^ 8 < 256 := by omega
  have hw : w = w % 256 + w / 2 ^ 8 * 2 ^ 8 := by omega
  calc swap16 (swap16 w)
      = swap16 (swap16 (w % 256 + w / 2 ^ 8 * 2 ^ 8)) := by rw [← hw]
    _ = swap16 (w / 2 ^ 8 + w % 256 * 2 ^ 8) := by rw [swap16_bytes _ _ ha hb]
    _ = w % 256 + w / 2 ^ 8 * 2 ^ 8 := swap16_bytes _ _ hb ha
    _ = w := hw.symm

theorem swap32_swap32 (w : Nat) (h : w < U32_MOD) : swap32 (swap32 w) = w := by
  have hu : w < 2 ^ 32 := h
  have ha : w % 256 < 256 := by omega
  have hb : w / 2 ^ 8 % 256 < 256 := by omega
  have hc : w / 2 ^ 16 % 256 < 256 := by omega
  have hd : w / 2 ^ 24 < 256 := by omega
  have hw : w = w % 256 + w / 2 ^ 8 % 256 * 2 ^ 8 + w / 2 ^ 16 % 256 * 2 ^ 16 +
      w / 2 ^ 24 * 2 ^ 24 := by omega
  calc swap32 (swap32 w)
      = swap32 (swap32 (w % 256 + w / 2 ^ 8 % 256 * 2 ^ 8 + w / 2 ^ 16 % 256 * 2 ^ 16 +
          w / 2 ^ 24 * 2 ^ 24)) := by rw [← hw]
    _ = swap32 (w / 2 ^ 24 + w / 2 ^ 16 % 256 * 2 ^ 8 + w / 2 ^ 8 % 256 * 2 ^ 16 +
          w % 256 * 2 ^ 24) := by rw [swap32_bytes _ _ _ _ ha hb hc hd]
    _ = w % 256 + w / 2 ^ 8 % 256 * 2 ^ 8 + w / 2 ^ 16 % 256 * 2 ^ 16 +
          w / 2 ^ 24 * 2 ^ 24 := swap32_bytes _ _ _ _ hd hc hb ha
    _ = w := hw.symm

theorem applyWrites_nil (m : Nat → Nat) : applyWrites [] m = m := rfl

theorem applyWrites_cons (w : MemWrite) (ws : List MemWrite) (m : Nat → Nat) :
    applyWrites (w :: ws) m = applyWrites ws (applyWrite w m) := rfl

theorem applyWrites_append (ws1 ws2 : List MemWrite) (m : Nat → Nat) :
    applyWrites (ws1 ++ ws2) m = applyWrites ws2 (applyWrites ws1 m) := by
  unfold applyWrites
  apply List.foldl_append

theorem applyWrite_not_covers (w : MemWrite) (m : Nat → Nat) (a : Nat)
    (h : ¬w.Covers a) : applyWrite w m a = m a := by
  cases w <;> simp only [applyWrite, MemWrite.Covers] at h ⊢ <;> rw [if_neg h]

theorem applyWrites_not_covers (ws : List MemWrite) (m : Nat → Nat) (a : Nat)
    (h : ∀ w ∈ ws, ¬w.Covers a) : applyWrites ws m a = m a := by
  induction ws generalizing m with
  | nil => rfl
  | cons w ws ih =>
    rw [applyWrites_cons, ih _ fun x hx => h x (List.mem_cons_of_mem _ hx),
      applyWrite_not_covers _ _ _ (h w (List.mem_cons_self w ws))]

theorem readBytes_length (buf : List Nat) (off n : Nat) :
    (readBytes buf off n).length = n := by
  simp [readBytes]

theorem readBytes_getD (buf : List Nat) (off n k : Nat) (h : k < n) :
    (readBytes buf off n).getD k 0 = buf.getD (off + k) 0 := by
  unfold readBytes
  rw [List.getD_eq_getElem?_getD, List.getElem?_map, List.getElem?_range h]
  rfl

theorem segmentWrites_covers_sub_region (bytes : List Nat) (flag : Bool)
    (p : Elf32_Phdr) (hwrap : p.p_vaddr + p.p_filesz < U32_MOD) (w : MemWrite)
    (hw : w ∈ segmentWrites bytes flag p) (a : Nat) (hc : w.Covers a) :
    segRegion p a := by
  unfold segmentWrites at hw
  split at hw
  case isFalse => simp at hw
  case isTrue =>
    split at hw
    case isTrue => simp at hw
    case isFalse =>
      rcases List.mem_cons.mp hw with rfl | hw2
      · simp only [MemWrite.Covers] at hc
        rw [readBytes_length] at hc
        unfold segRegion
        omega
      · split at hw2
        case isFalse => simp at hw2
        case isTrue hbss =>
          rcases List.mem_singleton.mp hw2 with rfl
          simp only [MemWrite.Covers] at hc
          rw [Nat.mod_eq_of_lt hwrap] at hc
          unfold segRegion
          omega


/-! Claim theorems. -/

/-- Claim C1: for every image classified as relocatable (its type is not
`ET_EXEC`), `LoadIntoMemory` fails (returns `false`, the spec's
`RelocationUnsupported`) and performs no write on the target memory image —
no byte copy and no zero-fill — regardless of the `only_in_mem1` argument and
of the segment table contents. -/
theorem loadIntoMemory_relocatable_fails_without_writes (r : ElfReader)
    (only_in_mem1 : Bool) (h : r.bRelocate = true) :
    LoadIntoMemory r only_in_mem1 = (false, []) := by
  unfold LoadIntoMemory
  rw [h]
  rfl

theorem loadIntoMemory_relocatable_witness :
    LoadIntoMemory relocFixture true = (false, []) :=
  loadIntoMemory_relocatable_fails_without_writes relocFixture true rfl

/-- Claim C3: construction fails with `MalformedHeader` — producing no parsed
header — whenever the buffer is shorter than the 52-byte ELF32 header or the
identification bytes do not match the ELF32 signature and class. -/
theorem constructHeader_malformed (buf : List Nat)
    (h : buf.length < 52 ∨ identMatches buf = false) :
    constructHeader buf = Except.error LoadError.MalformedHeader := by
  unfold constructHeader
  rw [if_pos h]

theorem constructHeader_malformed_witness :
    constructHeader [] = Except.error LoadError.MalformedHeader :=
  constructHeader_malformed [] (Or.inl (by decide))

/-- Claim C4 (code bug): `LoadIntoMemory` performs no bounds check on a
segment's declared file extent. On `c4reader`, whose only `LOAD` segment
declares 100 file bytes while the buffer holds 4, the load does not fail
with `TruncatedSegment`: it reports success and issues the (out-of-bounds)
copy anyway. -/
theorem loadIntoMemory_missing_truncation_check :
    c4reader.bytes.length < c4seg.p_offset + c4seg.p_filesz ∧
      (LoadIntoMemory c4reader false).1 = true ∧
      (LoadIntoMemory c4reader false).2 =
        [MemWrite.copy c4seg.p_vaddr (readBytes c4reader.bytes c4seg.p_offset c4seg.p_filesz)] := by
  refine ⟨by decide, rfl, ?_⟩
  rfl


/-- Claim C2 (amended): for a `LOAD` program-header entry `p` that is not
skipped by the primary-region constraint, processed on a non-relocatable
image, exactly `p_filesz` bytes from the buffer at `p_offset` are copied to
`p_vaddr` and the following `p_memsz - p_filesz` bytes are zero-filled, so
that after the whole load — provided `p`'s address range does not wrap the
32-bit arithmetic and the writes of the entries processed after `p` stay out
of `p`'s region — bytes `[0, filesz)` at `vaddr` equal the source file bytes
and bytes `[filesz, memsz)` are zero. -/
theorem loadIntoMemory_load_segment_copies_and_zero_fills (r : ElfReader)
    (only_in_mem1 : Bool) (pre post : List Elf32_Phdr) (p : Elf32_Phdr)
    (hsegs : r.segments = pre ++ p :: post)
    (hrel : r.bRelocate = false)
    (htype : p.p_type = PT_LOAD)
    (hskip : ¬(only_in_mem1 = true ∧ REALRAM_SIZE ≤ p.p_vaddr))
    (hwrap : p.p_vaddr + p.p_filesz < U32_MOD)
    (hpost : ∀ q ∈ post,
      q.p_vaddr + q.p_filesz < U32_MOD ∧ ∀ a, segRegion p a → ¬segRegion q a)
    (m0 : Nat → Nat) :
    (∀ k, k < p.p_filesz →
      applyWrites (LoadIntoMemory r only_in_mem1).2 m0 (p.p_vaddr + k) =
        r.bytes.getD (p.p_offset + k) 0) ∧
    (∀ k, p.p_filesz ≤ k → k < p.p_memsz →
      applyWrites (LoadIntoMemory r only_in_mem1).2 m0 (p.p_vaddr + k) = 0) := by
  have hload : (LoadIntoMemory r only_in_mem1).2 =
      (pre.map (segmentWrites r.bytes only_in_mem1)).flatten ++
        (segmentWrites r.bytes only_in_mem1 p ++
          (post.map (segmentWrites r.bytes only_in_mem1)).flatten) := by
    unfold LoadIntoMemory
    rw [hrel]
    simp [hsegs]
  have hnotpost : ∀ a, segRegion p a →
      ∀ w ∈ (post.map (segmentWrites r.bytes only_in_mem1)).flatten, ¬w.Covers a := by
    intro a hreg w hw hc
    rcases List.mem_flatten.mp hw with ⟨l, hl, hwl⟩
    rcases List.mem_map.mp hl with ⟨q, hq, rfl⟩
    exact (hpost q hq).2 a hreg
      (segmentWrites_covers_sub_region _ _ _ (hpost q hq).1 w hwl a hc)
  constructor
  · intro k hk
    have hreg : segRegion p (p.p_vaddr + k) := by
      unfold segRegion
      omega
    rw [hload, applyWrites_append, applyWrites_append,
      applyWrites_not_covers _ _ _ (hnotpost _ hreg)]
    unfold segmentWrites
    rw [if_pos htype, if_neg hskip]
    by_cases hbss : p.p_filesz < p.p_memsz
    · rw [if_pos hbss, applyWrites_cons, applyWrites_cons, applyWrites_nil,
        Nat.mod_eq_of_lt hwrap]
      simp only [applyWrite]
      rw [if_neg (by omega), if_pos ⟨Nat.le_add_right _ _, by rw [readBytes_length]; omega⟩,
        Nat.add_sub_cancel_left, readBytes_getD _ _ _ _ hk]
    · rw [if_neg hbss, applyWrites_cons, applyWrites_nil]
      simp only [applyWrite]
      rw [if_pos ⟨Nat.le_add_right _ _, by rw [readBytes_length]; omega⟩,
        Nat.add_sub_cancel_left, readBytes_getD _ _ _ _ hk]
  · intro k hk1 hk2
    have hbss : p.p_filesz < p.p_memsz := by omega
    have hreg : segRegion p (p.p_vaddr + k) := by
      unfold segRegion
      omega
    rw [hload, applyWrites_append, applyWrites_append,
      applyWrites_not_covers _ _ _ (hnotpost _ hreg)]
    unfold segmentWrites
    rw [if_pos htype, if_neg hskip, if_pos hbss, applyWrites_cons, applyWrites_cons,
      applyWrites_nil, Nat.mod_eq_of_lt hwrap]
    simp only [applyWrite]
    rw [if_pos ⟨by omega, by omega⟩]

theorem loadIntoMemory_copies_witness :
    applyWrites (LoadIntoMemory c2reader false).2 (fun _ => 0) (c2segMain.p_vaddr + 0) = 0xAA ∧
    applyWrites (LoadIntoMemory c2reader false).2 (fun _ => 0) (c2segMain.p_vaddr + 15) = 0xAA ∧
    applyWrites (LoadIntoMemory c2reader false).2 (fun _ => 0) (c2segMain.p_vaddr + 16) = 0 ∧
    applyWrites (LoadIntoMemory c2reader false).2 (fun _ => 0) (c2segMain.p_vaddr + 31) = 0 := by
  have h := loadIntoMemory_load_segment_copies_and_zero_fills c2reader false
    [c2segOther] [] c2segMain rfl rfl rfl (by decide) (by decide)
    (by intro q hq; cases hq) (fun _ => 0)
  exact ⟨(h.1 0 (by decide)).trans (by decide), (h.1 15 (by decide)).trans (by decide),
    h.2 16 (by decide) (by decide), h.2 31 (by decide) (by decide)⟩


theorem findSectionFrom_some (r : ElfReader) (name : List Nat) :
    ∀ fuel i s, findSectionFrom r name i fuel = some s →
      i ≤ s ∧ s < i + fuel ∧ GetSectionName r s = some name ∧
        ∀ j, i ≤ j → j < s → GetSectionName r j ≠ some name := by
  intro fuel
  induction fuel with
  | zero =>
    intro i s h
    simp [findSectionFrom] at h
  | succ fuel ih =>
    intro i s h
    unfold findSectionFrom at h
    split at h
    case isTrue hname =>
      cases h
      refine ⟨Nat.le_refl _, by omega, hname, ?_⟩
      intro j hj1 hj2
      exact absurd hj2 (by omega)
    case isFalse hname =>
      obtain ⟨h1, h2, h3, h4⟩ := ih (i + 1) s h
      refine ⟨by omega, by omega, h3, ?_⟩
      intro j hj1 hj2
      by_cases hji : j = i
      · subst hji
        exact hname
      · exact h4 j (by omega) hj2

theorem findSectionFrom_none (r : ElfReader) (name : List Nat) :
    ∀ fuel i, findSectionFrom r name i fuel = none →
      ∀ j, i ≤ j → j < i + fuel → GetSectionName r j ≠ some name := by
  intro fuel
  induction fuel with
  | zero =>
    intro i h j hj1 hj2
    exact absurd hj2 (by omega)
  | succ fuel ih =>
    intro i h j hj1 hj2
    unfold findSectionFrom at h
    split at h
    case isTrue hname => exact absurd h (by simp)
    case isFalse hname =>
      by_cases hji : j = i
      · subst hji
        exact hname
      · exact ih (i + 1) h j (by omega) (by omega)

/-- Claim C6: `GetSectionByName` returns the first section index at or after
`firstSection` whose resolved name equals `name` exactly, returns `none`
(the source's `-1`) when no section in range has that name, and a
`SHT_NULL`-type section has no name, hence never matches. -/
theorem getSectionByName_first_match (r : ElfReader) (name : List Nat)
    (firstSection : Nat) :
    (∀ s, GetSectionByName r name firstSection = some s →
      firstSection ≤ s ∧ s < r.sections.length ∧ GetSectionName r s = some name ∧
        ∀ j, firstSection ≤ j → j < s → GetSectionName r j ≠ some name) ∧
    (GetSectionByName r name firstSection = none →
      ∀ j, firstSection ≤ j → j < r.sections.length →
        GetSectionName r j ≠ some name) ∧
    (∀ j, (r.sections.getD j default).sh_type = SHT_NULL →
      GetSectionName r j = none) := by
  refine ⟨?_, ?_, ?_⟩
  · intro s h
    obtain ⟨h1, h2, h3, h4⟩ := findSectionFrom_some r name _ _ _ h
    exact ⟨h1, by omega, h3, h4⟩
  · intro h j hj1 hj2
    exact findSectionFrom_none r name _ _ h j hj1 (by omega)
  · intro j hj
    unfold GetSectionName
    rw [if_pos hj]

theorem getSectionByName_witness :
    (GetSectionName c5reader 1 = some dotSymtab ∧
      GetSectionName c5reader 0 ≠ some dotSymtab) ∧
    (∀ j, 0 ≤ j → j < c5reader.sections.length →
      GetSectionName c5reader j ≠ some zName) ∧
    GetSectionName c6nullReader 0 = none := by
  refine ⟨?_, ?_, ?_⟩
  · obtain ⟨h1, h2, h3, h4⟩ :=
      (getSectionByName_first_match c5reader dotSymtab 0).1 1 (by decide)
    exact ⟨h3, h4 0 (by decide) (by decide)⟩
  · exact (getSectionByName_first_match c5reader zName 0).2.1 (by decide)
  · exact (getSectionByName_first_match c6nullReader [] 0).2.2 0 (by decide)


theorem processSym_some (r : ElfReader) (sb off : Nat) (v s : Nat) (nm : List Nat)
    (t : SymbolType)
    (h : processSym r sb off = some (SinkCall.addSymbol v s nm t)) :
    s = swap32 (readU32 r.bytes (off + 8)) ∧ s ≠ 0 ∧
      ((r.bytes.getD (off + 12) 0 % 16 = STT_OBJECT ∧ t = SymbolType.Data) ∨
       (r.bytes.getD (off + 12) 0 % 16 = STT_FUNC ∧ t = SymbolType.Function)) := by
  simp only [processSym] at h
  split at h
  case isTrue => exact absurd h (by simp)
  case isFalse hsz =>
    split at h
    case isTrue hty =>
      simp only [Option.some.injEq, SinkCall.addSymbol.injEq] at h
      obtain ⟨rfl, rfl, rfl, rfl⟩ := h
      exact ⟨rfl, hsz, Or.inl ⟨hty, rfl⟩⟩
    case isFalse =>
      split at h
      case isTrue hty =>
        simp only [Option.some.injEq, SinkCall.addSymbol.injEq] at h
        obtain ⟨rfl, rfl, rfl, rfl⟩ := h
        exact ⟨rfl, hsz, Or.inr ⟨hty, rfl⟩⟩
      case isFalse => exact absurd h (by simp)

theorem processSym_isAdd (r : ElfReader) (sb off : Nat) (c : SinkCall)
    (h : processSym r sb off = some c) : c.isAdd = true := by
  simp only [processSym] at h
  split at h
  case isTrue => exact absurd h (by simp)
  case isFalse =>
    split at h
    case isTrue =>
      rw [Option.some.injEq] at h
      subst h
      rfl
    case isFalse =>
      split at h
      case isTrue =>
        rw [Option.some.injEq] at h
        subst h
        rfl
      case isFalse => exact absurd h (by simp)

theorem symbolCalls_isAdd (r : ElfReader) (c : SinkCall) (h : c ∈ symbolCalls r) :
    c.isAdd = true := by
  unfold symbolCalls at h
  split at h
  case h_1 => simp at h
  case h_2 sec hsec =>
    rcases List.mem_filterMap.mp h with ⟨sym, _, hps⟩
    exact processSym_isAdd _ _ _ _ hps

/-- Claim C5: every symbol `ExtractSymbols` emits to the sink has a nonzero
declared size and is classified `Data` or `Function`; moreover the emitted
size is the (byte-swapped) declared size of a symbol record whose `st_info`
type nibble is `STT_OBJECT` (classified `Data`) or `STT_FUNC` (classified
`Function`) — entries with any other nibble are never emitted. -/
theorem loadSymbols_emitted_constraints (r : ElfReader) (v s : Nat)
    (nm : List Nat) (t : SymbolType)
    (h : SinkCall.addSymbol v s nm t ∈ (LoadSymbols r).2) :
    s ≠ 0 ∧ (t = SymbolType.Data ∨ t = SymbolType.Function) ∧
      ∃ off, s = swap32 (readU32 r.bytes (off + 8)) ∧
        ((r.bytes.getD (off + 12) 0 % 16 = STT_OBJECT ∧ t = SymbolType.Data) ∨
         (r.bytes.getD (off + 12) 0 % 16 = STT_FUNC ∧ t = SymbolType.Function)) := by
  unfold LoadSymbols at h
  rcases List.mem_append.mp h with hmem | hmem
  · unfold symbolCalls at hmem
    split at hmem
    case h_1 => simp at hmem
    case h_2 sec hsec =>
      rcases List.mem_filterMap.mp hmem with ⟨sym, hsymmem, hps⟩
      obtain ⟨hs, hsz, hty⟩ := processSym_some _ _ _ _ _ _ _ hps
      refine ⟨hsz, ?_, _, hs, hty⟩
      rcases hty with ⟨_, rfl⟩ | ⟨_, rfl⟩
      · exact Or.inl rfl
      · exact Or.inr rfl
  · simp at hmem

theorem loadSymbols_emitted_witness :
    (4 : Nat) ≠ 0 ∧
      (SymbolType.Function = SymbolType.Data ∨
        SymbolType.Function = SymbolType.Function) ∧
      ∃ off, (4 : Nat) = swap32 (readU32 c5reader.bytes (off + 8)) ∧
        ((c5reader.bytes.getD (off + 12) 0 % 16 = STT_OBJECT ∧
            SymbolType.Function = SymbolType.Data) ∨
         (c5reader.bytes.getD (off + 12) 0 % 16 = STT_FUNC ∧
            SymbolType.Function = SymbolType.Function)) :=
  loadSymbols_emitted_constraints c5reader 0x1234 4 [0x66] SymbolType.Function (by decide)

/-- Claim C8: `LoadSymbols` returns whether any symbol was emitted: the flag
is true exactly when some `AddKnownSymbol` call is in the sink trace, and
when no `".symtab"` section exists it returns false without error, the trace
holding no symbol at all (only the final `Index` call). -/
theorem loadSymbols_bool_iff_emitted (r : ElfReader) :
    ((LoadSymbols r).1 = true ↔ ∃ c ∈ (LoadSymbols r).2, c.isAdd = true) ∧
    (GetSectionByName r dotSymtab 0 = none →
      (LoadSymbols r).1 = false ∧ (LoadSymbols r).2 = [SinkCall.index]) := by
  constructor
  · constructor
    · intro h1
      have hne : symbolCalls r ≠ [] := by
        intro he
        unfold LoadSymbols at h1
        rw [he] at h1
        simp at h1
      obtain ⟨c, hc⟩ := List.exists_mem_of_ne_nil _ hne
      exact ⟨c, List.mem_append_left _ hc, symbolCalls_isAdd r c hc⟩
    · rintro ⟨c, hc, hadd⟩
      rcases List.mem_append.mp hc with h | h
      · rcases hl : symbolCalls r with _ | ⟨a, l⟩
        · rw [hl] at h
          simp at h
        · simp [LoadSymbols, hl]
      · simp at h
        subst h
        simp [SinkCall.isAdd] at hadd
  · intro hnone
    have hc : symbolCalls r = [] := by
      unfold symbolCalls
      rw [hnone]
    simp [LoadSymbols, hc]

theorem loadSymbols_bool_witness :
    (LoadSymbols c6nullReader).1 = false ∧
      (LoadSymbols c6nullReader).2 = [SinkCall.index] :=
  (loadSymbols_bool_iff_emitted c6nullReader).2 (by decide)

/-- Claim C10: on every call to `LoadSymbols` — also when `".symtab"` is
absent or every entry is skipped — the sink's `Index` finalization call
occurs exactly once, after all `AddKnownSymbol` calls. -/
theorem loadSymbols_index_once_last (r : ElfReader) :
    ∃ adds, (LoadSymbols r).2 = adds ++ [SinkCall.index] ∧
      ∀ c ∈ adds, c ≠ SinkCall.index := by
  refine ⟨symbolCalls r, rfl, ?_⟩
  intro c hc he
  have hadd := symbolCalls_isAdd r c hc
  rw [he] at hadd
  simp [SinkCall.isAdd] at hadd


/-- Claim C7 counterexample: the claim predicts that altering the matching
word by one bit OUTSIDE the mask makes the classifier return false; but bits
outside the mask are ignored by `(word & mask) == pattern`, so on
`c7outsideReader` — identical to the matching fixture `c7reader` except bit
21 of the word, a bit the mask does not select, is flipped — `IsWii` still
returns true. -/
theorem isWii_outside_mask_flip_still_true :
    IsWii c7reader = true ∧ IsWii c7outsideReader = true := by
  constructor <;> decide

/-- Claim C7 (amended): `ClassifyPlatformVariant` returns true exactly when
some executable (code) `LOAD` segment contains a 4-byte word matching the
fixed mask/pattern pair; altering a bit of that word INSIDE the mask breaks
the match (and returns false when it was the only match), while bits outside
the mask do not participate in the comparison at all. -/
theorem isWii_iff_code_segment_matches (r : ElfReader) :
    IsWii r = true ↔ ∃ i, i < r.segments.length ∧ IsCodeSegment r i = true ∧
      ∃ j, j < GetSegmentSize r i / 4 ∧
        readU32 r.bytes (GetSegmentPtr r i + 4 * j) &&& HID4_mask = HID4_pattern := by
  unfold IsWii
  rw [List.any_eq_true]
  constructor
  · rintro ⟨i, hi, hcond⟩
    rw [List.mem_range] at hi
    rw [Bool.and_eq_true] at hcond
    obtain ⟨hcode, hany⟩ := hcond
    rw [List.any_eq_true] at hany
    obtain ⟨j, hj, hw⟩ := hany
    rw [List.mem_range] at hj
    exact ⟨i, hi, hcode, j, hj, by rwa [beq_iff_eq] at hw⟩
  · rintro ⟨i, hi, hcode, j, hj, hw⟩
    refine ⟨i, List.mem_range.mpr hi, ?_⟩
    rw [Bool.and_eq_true]
    exact ⟨hcode, List.any_eq_true.mpr ⟨j, List.mem_range.mpr hj, beq_iff_eq.mpr hw⟩⟩

theorem isWii_matches_witness :
    IsWii c7reader = true ∧ IsWii c7insideReader = false := by
  constructor
  · exact (isWii_iff_code_segment_matches c7reader).mpr
      ⟨0, by decide, by decide, 0, by decide, by decide⟩
  · decide

/-- Claim C9 counterexample: on the valid all-zero-field ELF32 buffer
`c9zeroBuf`, a second application of the endian normalization leaves the
once-normalized header unchanged, so the universally quantified
non-idempotence ("a second application yields a different header for every
valid buffer") fails. -/
theorem byteswapHeader_idempotent_on_zero_fixture :
    (52 ≤ c9zeroBuf.length ∧ identMatches c9zeroBuf = true) ∧
      byteswapHeader (byteswapHeader (parseEhdrRaw c9zeroBuf)) =
        byteswapHeader (parseEhdrRaw c9zeroBuf) := by
  constructor
  · constructor <;> decide
  · decide

/-- Claim C9 (amended): the endian normalization is an involution — a second
application restores the original (pre-normalization) header — so it is not
idempotent at any header with at least one field the byte swap changes; it
IS idempotent exactly at the headers the swap fixes (e.g. the all-zero-field
valid buffer of the counterexample). -/
theorem byteswapHeader_involutive (h : Elf32_Ehdr) (hw : h.WF) :
    byteswapHeader (byteswapHeader h) = h ∧
      (byteswapHeader h ≠ h →
        byteswapHeader (byteswapHeader h) ≠ byteswapHeader h) := by
  obtain ⟨h1, h2, h3, h4, h5, h6, h7, h8, h9, h10, h11, h12, h13⟩ := hw
  have hinv : byteswapHeader (byteswapHeader h) = h := by
    cases h
    simp only [byteswapHeader, Elf32_Ehdr.mk.injEq]
    exact ⟨trivial, swap16_swap16 _ h1, swap16_swap16 _ h2, swap32_swap32 _ h9,
      swap32_swap32 _ h10, swap32_swap32 _ h11, swap32_swap32 _ h12,
      swap32_swap32 _ h13, swap16_swap16 _ h3, swap16_swap16 _ h4,
      swap16_swap16 _ h5, swap16_swap16 _ h6, swap16_swap16 _ h7,
      swap16_swap16 _ h8⟩
  refine ⟨hinv, fun hne heq => hne ?_⟩
  rw [← heq, hinv]

theorem byteswapHeader_involutive_witness :
    byteswapHeader (byteswapHeader c9hdr) = c9hdr ∧
      byteswapHeader (byteswapHeader c9hdr) ≠ byteswapHeader c9hdr :=
  ⟨(byteswapHeader_involutive c9hdr (by unfold Elf32_Ehdr.WF; decide)).1,
    (byteswapHeader_involutive c9hdr (by unfold Elf32_Ehdr.WF; decide)).2 (by decide)⟩


/-- Claim C2 counterexample: the universally quantified "after loading" state
property fails when a later-processed `LOAD` segment overlaps an earlier one.
In `c2ovlReader`, the entry `c2ovlA` is a processed (non-skipped) `LOAD`
segment, yet after the whole load the byte at its `p_vaddr` is the second
segment's `0x22`, not the `0x11` the buffer holds at `c2ovlA`'s file offset. -/
theorem loadIntoMemory_overlap_counterexample :
    c2ovlReader.segments = [c2ovlA, c2ovlB] ∧ c2ovlA.p_type = PT_LOAD ∧
      c2ovlReader.bRelocate = false ∧
      applyWrites (LoadIntoMemory c2ovlReader false).2 (fun _ => 0)
          (c2ovlA.p_vaddr + 0) ≠
        c2ovlReader.bytes.getD (c2ovlA.p_offset + 0) 0 := by
  refine ⟨rfl, rfl, rfl, ?_⟩
  decide

end Elf
